import Mathlib

/-!
Verification of the data-ingestion core of the kingdom-monorepo repository:
the paginated, rate-limited, retrying API client
(tools/data-ingestion/lib/base.py), the upsert-based persistence layer
(tools/data-ingestion/lib/database.py), the progress and error accounting
(tools/data-ingestion/lib/progress.py), and the bill-ingestion orchestration
(tools/data-ingestion/scripts/congress/ingest_bills.py).

Each Python component is shallowly embedded as executable Lean definitions;
effectful code is modelled by explicit state passing and event traces.
-/

namespace Spec2Proof

/-! ## Section 1: the upsert persistence primitive

`DatabaseManager.upsert` (database.py, lines 206-246) issues

  INSERT INTO table (columns) VALUES rows
  ON CONFLICT (conflict_columns) DO UPDATE SET col = EXCLUDED.col ...

with one `col = EXCLUDED.col` item per update column, where the update
columns default to all columns not in `conflict_columns` (line 230-231).
We embed the PostgreSQL semantics of that statement over a table modelled
as a list of rows, a row being a list of values aligned with the column
list (the Row invariant of the spec: arity and order match the columns).
PostgreSQL applies the rows of the VALUES list in order: a row whose
conflict-key already exists updates the stored row in place, any other row
is appended.
-/

variable {α : Type}

/-- Projection of a row onto the conflict columns: the values of the row at
the positions whose column name is in `conflictCols`.  This is the
ConflictKey of the row. -/
def rowKey (conflictCols : List String) : List String → List α → List α
  | [], _ => []
  | _ :: _, [] => []
  | c :: cs, a :: as =>
    if c ∈ conflictCols then a :: rowKey conflictCols cs as
    else rowKey conflictCols cs as

/-- Effect of `DO UPDATE SET col = EXCLUDED.col` on one stored row: every
column in `updateCols` takes the incoming value, every other column keeps
the stored value. -/
def overwriteRow (updateCols : List String) : List String → List α → List α → List α
  | [], _, _ => []
  | _ :: _, [], _ => []
  | _ :: _, _ :: _, [] => []
  | c :: cs, a :: as, b :: bs =>
    (if c ∈ updateCols then b else a) :: overwriteRow updateCols cs as bs

/-- Effect of inserting one VALUES row: if some stored row has the same
conflict key, that row is updated (`DO UPDATE`), otherwise the row is
appended to the table. -/
def upsertRow [DecidableEq α] (columns conflictCols updateCols : List String)
    (table : List (List α)) (v : List α) : List (List α) :=
  if table.any fun r =>
      decide (rowKey conflictCols columns r = rowKey conflictCols columns v) then
    table.map fun r =>
      if rowKey conflictCols columns r = rowKey conflictCols columns v then
        overwriteRow updateCols columns r v
      else r
  else table ++ [v]

/-- Default update columns of `DatabaseManager.upsert`: all columns that are
not conflict columns (database.py lines 230-231). -/
def defaultUpdateColumns (columns conflictCols : List String) : List String :=
  columns.filter fun c => decide (c ∉ conflictCols)

/-- State transformation of one `DatabaseManager.upsert` call on the stored
table: the VALUES rows are applied in order. -/
def upsertTable [DecidableEq α] (columns conflictCols updateCols : List String)
    (table : List (List α)) (rows : List (List α)) : List (List α) :=
  rows.foldl (upsertRow columns conflictCols updateCols) table

lemma overwriteRow_overwriteRow (ucs : List String) :
    ∀ (cols : List String) (r v : List α),
      overwriteRow ucs cols (overwriteRow ucs cols r v) v = overwriteRow ucs cols r v
  | [], r, v => rfl
  | _ :: _, [], v => rfl
  | c :: cs, a :: as, [] => rfl
  | c :: cs, a :: as, b :: bs => by
    by_cases h : c ∈ ucs <;>
      simp [overwriteRow, h, overwriteRow_overwriteRow ucs cs as bs]

lemma overwriteRow_self (ucs : List String) :
    ∀ (cols : List String) (v : List α), v.length ≤ cols.length →
      overwriteRow ucs cols v v = v
  | [], [], _ => rfl
  | _ :: _, [], _ => rfl
  | [], a :: as, h => absurd h (by simp)
  | c :: cs, a :: as, h => by
    by_cases hc : c ∈ ucs <;>
      simp [overwriteRow, hc, overwriteRow_self ucs cs as (by simpa using h)]

lemma rowKey_overwriteRow (ccs ucs : List String) :
    ∀ (cols : List String) (r v : List α),
      rowKey ccs cols r = rowKey ccs cols v →
      rowKey ccs cols (overwriteRow ucs cols r v) = rowKey ccs cols v
  | [], r, v, _ => rfl
  | c :: cs, [], v, h => by simp [overwriteRow, rowKey, ← h]
  | c :: cs, a :: as, [], _ => by simp [overwriteRow, rowKey]
  | c :: cs, a :: as, b :: bs, h => by
    by_cases hcc : c ∈ ccs
    · simp only [rowKey, if_pos hcc] at h
      obtain ⟨hab, htl⟩ := List.cons.injEq _ _ _ _ ▸ h
      by_cases hcu : c ∈ ucs <;>
        simp [overwriteRow, rowKey, hcc, hcu, hab,
          rowKey_overwriteRow ccs ucs cs as bs htl]
    · simp only [rowKey, if_neg hcc] at h
      simp [overwriteRow, rowKey, hcc, rowKey_overwriteRow ccs ucs cs as bs h]

/-- Invariant used for idempotency: the table contains a row with the
conflict key of `v`, and every such row already carries the values of `v`
at the update columns, so a further `DO UPDATE` with `v` is a no-op. -/
def UpsertInv (columns conflictCols updateCols : List String)
    (table : List (List α)) (v : List α) : Prop :=
  (∃ r ∈ table, rowKey conflictCols columns r = rowKey conflictCols columns v) ∧
    ∀ r ∈ table, rowKey conflictCols columns r = rowKey conflictCols columns v →
      overwriteRow updateCols columns r v = r

lemma upsertRow_of_inv [DecidableEq α] {columns conflictCols updateCols : List String}
    {table : List (List α)} {v : List α}
    (h : UpsertInv columns conflictCols updateCols table v) :
    upsertRow columns conflictCols updateCols table v = table := by
  obtain ⟨⟨r0, hr0, hk0⟩, hagree⟩ := h
  have hany : (table.any fun r =>
      decide (rowKey conflictCols columns r = rowKey conflictCols columns v)) = true := by
    simp only [List.any_eq_true, decide_eq_true_eq]
    exact ⟨r0, hr0, hk0⟩
  simp only [upsertRow, hany, if_true]
  conv_rhs => rw [← List.map_id table]
  refine List.map_congr_left fun r hr => ?_
  by_cases hk : rowKey conflictCols columns r = rowKey conflictCols columns v
  · simpa [hk] using hagree r hr hk
  · simp [hk]

lemma inv_upsertRow_self [DecidableEq α] {columns conflictCols updateCols : List String}
    (table : List (List α)) (v : List α) (hv : v.length ≤ columns.length) :
    UpsertInv columns conflictCols updateCols
      (upsertRow columns conflictCols updateCols table v) v := by
  unfold upsertRow
  by_cases hany : (table.any fun r =>
      decide (rowKey conflictCols columns r = rowKey conflictCols columns v)) = true
  · simp only [hany, if_true]
    simp only [List.any_eq_true, decide_eq_true_eq] at hany
    obtain ⟨r0, hr0, hk0⟩ := hany
    refine ⟨⟨overwriteRow updateCols columns r0 v, ?_, ?_⟩, ?_⟩
    · exact List.mem_map.mpr ⟨r0, hr0, by simp [hk0]⟩
    · exact rowKey_overwriteRow conflictCols updateCols columns r0 v hk0
    · intro r' hr' hk'
      obtain ⟨r, hr, hfr⟩ := List.mem_map.mp hr'
      by_cases hk : rowKey conflictCols columns r = rowKey conflictCols columns v
      · rw [if_pos hk] at hfr
        rw [← hfr]
        exact overwriteRow_overwriteRow updateCols columns r v
      · rw [if_neg hk] at hfr
        exact absurd (hfr ▸ hk') hk
  · simp only [hany, if_false]
    constructor
    · exact ⟨v, by simp, rfl⟩
    · intro r hr hk
      rcases List.mem_append.mp hr with hr | hr
      · exact absurd (List.any_eq_true.mpr ⟨r, hr, by simpa using hk⟩) hany
      · simp only [List.mem_singleton] at hr
        rw [hr]
        exact overwriteRow_self updateCols columns v hv

lemma inv_upsertRow_other [DecidableEq α] {columns conflictCols updateCols : List String}
    {table : List (List α)} {v w : List α}
    (h : UpsertInv columns conflictCols updateCols table w)
    (hne : rowKey conflictCols columns v ≠ rowKey conflictCols columns w) :
    UpsertInv columns conflictCols updateCols
      (upsertRow columns conflictCols updateCols table v) w := by
  obtain ⟨⟨r0, hr0, hk0⟩, hagree⟩ := h
  unfold upsertRow
  by_cases hany : (table.any fun r =>
      decide (rowKey conflictCols columns r = rowKey conflictCols columns v)) = true
  · simp only [hany, if_true]
    have hr0v : ¬ rowKey conflictCols columns r0 = rowKey conflictCols columns v := by
      rw [hk0]; exact fun h => hne h.symm
    refine ⟨⟨r0, List.mem_map.mpr ⟨r0, hr0, by simp [hr0v]⟩, hk0⟩, ?_⟩
    intro r' hr' hk'
    obtain ⟨r, hr, hfr⟩ := List.mem_map.mp hr'
    by_cases hk : rowKey conflictCols columns r = rowKey conflictCols columns v
    · rw [if_pos hk] at hfr
      have : rowKey conflictCols columns r' = rowKey conflictCols columns v := by
        rw [← hfr]
        exact rowKey_overwriteRow conflictCols updateCols columns r v hk
      exact absurd (this ▸ hk'.symm).symm hne
    · rw [if_neg hk] at hfr
      exact hagree r' (hfr ▸ hr) hk'
  · simp only [hany, if_false]
    refine ⟨⟨r0, List.mem_append_left _ hr0, hk0⟩, ?_⟩
    intro r hr hk
    rcases List.mem_append.mp hr with hr | hr
    · exact hagree r hr hk
    · simp only [List.mem_singleton] at hr
      subst hr
      exact absurd hk hne

lemma inv_upsertTable_other [DecidableEq α] {columns conflictCols updateCols : List String}
    {w : List α} :
    ∀ (rows : List (List α)) (table : List (List α)),
      UpsertInv columns conflictCols updateCols table w →
      (∀ v ∈ rows, rowKey conflictCols columns v ≠ rowKey conflictCols columns w) →
      UpsertInv columns conflictCols updateCols
        (upsertTable columns conflictCols updateCols table rows) w
  | [], table, h, _ => h
  | v :: rest, table, h, hne =>
    inv_upsertTable_other rest _
      (inv_upsertRow_other h (hne v (by simp)))
      (fun u hu => hne u (by simp [hu]))

lemma upsertTable_establishes_inv [DecidableEq α]
    {columns conflictCols updateCols : List String} :
    ∀ (rows : List (List α)) (table : List (List α)),
      ((rows.map (rowKey conflictCols columns)).Nodup) →
      (∀ v ∈ rows, v.length ≤ columns.length) →
      ∀ v ∈ rows, UpsertInv columns conflictCols updateCols
        (upsertTable columns conflictCols updateCols table rows) v
  | [], _, _, _, v, hv => absurd hv (by simp)
  | v0 :: rest, table, hnd, hlen, v, hv => by
    have hnd' : (∀ u ∈ rest,
        ¬rowKey conflictCols columns u = rowKey conflictCols columns v0) ∧
        (rest.map (rowKey conflictCols columns)).Nodup := by
      simpa using hnd
    rcases List.mem_cons.mp hv with hv | hv
    · subst hv
      exact inv_upsertTable_other rest _
        (inv_upsertRow_self table v (hlen v (by simp)))
        (fun u hu => hnd'.1 u hu)
    · exact upsertTable_establishes_inv rest
        (upsertRow columns conflictCols updateCols table v0)
        hnd'.2 (fun u hu => hlen u (by simp [hu])) v hv

lemma upsertTable_of_inv [DecidableEq α] {columns conflictCols updateCols : List String} :
    ∀ (rows : List (List α)) (table : List (List α)),
      (∀ v ∈ rows, UpsertInv columns conflictCols updateCols table v) →
      upsertTable columns conflictCols updateCols table rows = table
  | [], _, _ => rfl
  | v0 :: rest, table, h => by
    have h0 : upsertRow columns conflictCols updateCols table v0 = table :=
      upsertRow_of_inv (h v0 (by simp))
    show upsertTable columns conflictCols updateCols
        (upsertRow columns conflictCols updateCols table v0) rest = table
    rw [h0]
    exact upsertTable_of_inv rest table (fun v hv => h v (by simp [hv]))

/-- C1: upserting the same rows twice leaves the stored table exactly as
after a single upsert, both in content and in row count: the second run
updates the existing rows instead of inserting duplicates.  The two
hypotheses reflect the execution domain of the SQL statement: each VALUES
row carries one value per column of the column list, and the conflict keys
within one batch are pairwise distinct (PostgreSQL rejects an
INSERT .. ON CONFLICT DO UPDATE whose batch affects one row twice). -/
theorem upsert_twice_eq_once {α : Type} [DecidableEq α]
    (columns conflictCols updateCols : List String)
    (table rows : List (List α))
    (hnd : (rows.map (rowKey conflictCols columns)).Nodup)
    (hlen : ∀ v ∈ rows, v.length = columns.length) :
    upsertTable columns conflictCols updateCols
        (upsertTable columns conflictCols updateCols table rows) rows
      = upsertTable columns conflictCols updateCols table rows ∧
    (upsertTable columns conflictCols updateCols
        (upsertTable columns conflictCols updateCols table rows) rows).length
      = (upsertTable columns conflictCols updateCols table rows).length := by
  have h := upsertTable_of_inv rows
    (upsertTable columns conflictCols updateCols table rows)
    (upsertTable_establishes_inv rows table hnd
      (fun v hv => le_of_eq (hlen v hv)))
  exact ⟨h, congrArg List.length h⟩

/-- Witness for C1: a concrete two-row batch upserted twice into an empty
table, with the default update columns. -/
theorem upsert_twice_eq_once_witness :
    upsertTable ["bill_id", "title"] ["bill_id"]
        (defaultUpdateColumns ["bill_id", "title"] ["bill_id"])
        (upsertTable ["bill_id", "title"] ["bill_id"]
          (defaultUpdateColumns ["bill_id", "title"] ["bill_id"])
          ([] : List (List String))
          [["118-hr-1", "t1"], ["118-hr-2", "t2"]])
        [["118-hr-1", "t1"], ["118-hr-2", "t2"]]
      = upsertTable ["bill_id", "title"] ["bill_id"]
          (defaultUpdateColumns ["bill_id", "title"] ["bill_id"])
          ([] : List (List String))
          [["118-hr-1", "t1"], ["118-hr-2", "t2"]] :=
  (upsert_twice_eq_once ["bill_id", "title"] ["bill_id"]
    (defaultUpdateColumns ["bill_id", "title"] ["bill_id"])
    [] [["118-hr-1", "t1"], ["118-hr-2", "t2"]]
    (by decide) (by decide)).1

/-! ## Section 2: pagination

`BaseAPIClient.paginate` (base.py, lines 168-221) loops over pages.  Each
iteration first issues a cursor-style request (parameters `pageSize` and
`offsetMark`); if that request raises, it falls back to one offset-style
request (parameters `limit` and `offset`) for the same page.  Items and the
next-page descriptor are extracted from the chosen response through the two
abstract hook methods of the client.  The generator stops when `max_pages`
is reached, when the extracted item list is empty, or when the next-page
descriptor is falsy; a falsy descriptor in Python is `None` or an empty
mapping, which we model as `none`.  The extra keyword parameters are
constant across iterations and are not modelled.  The Python loop has no
intrinsic bound, so the embedding takes a fuel argument; exhausted fuel is
reported as a distinguished outcome so that termination is expressible. -/

/-- One page request, in one of the two pagination styles of the source. -/
inductive PageRequest
  | cursor (pageSize : Nat) (offsetMark : String)
  | offsetStyle (pageSize : Nat) (offset : Nat)
deriving DecidableEq

/-- The client-specific collaborators of `paginate`: the request step
(`self.get`, which may raise) and the two extraction hooks
(`_extract_items` and `_get_next_page`).  A next-page descriptor is
`some m` for a truthy mapping whose optional `offsetMark` entry is `m`,
and `none` for an absent or falsy descriptor. -/
structure PaginateEnv (R I : Type) where
  get : PageRequest → Except Unit R
  extractItems : R → List I
  getNextPage : R → Option (Option String)

/-- How a run of `paginate` ended: normal loop exit, fuel exhaustion (the
loop was still running), or an exception escaping from the request step. -/
inductive PagOutcome
  | done
  | fuelOut
  | raised
deriving DecidableEq

/-- Observable result of a `paginate` run: the page requests issued, the
items yielded in order, and how the run ended. -/
structure PagRun (I : Type) where
  reqs : List PageRequest
  items : List I
  outcome : PagOutcome
deriving DecidableEq

/-- Guard `max_pages is not None and page >= max_pages` (base.py line 192). -/
def maxReached : Option Nat → Nat → Bool
  | some mp, page => decide (mp ≤ page)
  | none, _ => false

/-- What one page contributes after a response has been obtained: either the
loop stops (yielding the extra items of this page, if any), or it continues
with a new offset mark.  This is the straight-line tail of the loop body
(base.py lines 204-221): empty item list stops the loop before yielding,
items are yielded, a falsy next-page descriptor stops the loop after
yielding, and otherwise `offsetMark` is updated from the descriptor when
present and kept otherwise. -/
inductive PageStep (I : Type)
  | stop (yield : List I) (outcome : PagOutcome)
  | next (yield : List I) (newMark : String)
deriving DecidableEq

/-- Processing of one page response: item extraction and next-page
extraction are delegated to the two hooks of the environment. -/
def paginateHandle {R I : Type} (env : PaginateEnv R I) (mark : String)
    (resp : R) : PageStep I :=
  let items := env.extractItems resp
  if items.isEmpty then .stop [] .done
  else
    match env.getNextPage resp with
    | none => .stop items .done
    | some mark? => .next items (mark?.getD mark)

/-- The pagination loop (base.py lines 187-221).  The state is the page
counter, the numeric offset, and the current offset mark; `reqs` and `acc`
accumulate the issued requests and the yielded items. -/
def paginateLoop {R I : Type} (env : PaginateEnv R I) (pageSize : Nat)
    (maxPages : Option Nat) :
    Nat → Nat → Nat → String → List PageRequest → List I → PagRun I
  | 0, _, _, _, reqs, acc => ⟨reqs, acc, .fuelOut⟩
  | fuel + 1, page, offset, mark, reqs, acc =>
    if maxReached maxPages page then ⟨reqs, acc, .done⟩
    else
      match env.get (.cursor pageSize mark) with
      | .ok resp =>
        match paginateHandle env mark resp with
        | .stop extra outcome => ⟨reqs ++ [.cursor pageSize mark], acc ++ extra, outcome⟩
        | .next yield newMark =>
          paginateLoop env pageSize maxPages fuel (page + 1) (offset + pageSize)
            newMark (reqs ++ [.cursor pageSize mark]) (acc ++ yield)
      | .error _ =>
        match env.get (.offsetStyle pageSize offset) with
        | .ok resp =>
          match paginateHandle env mark resp with
          | .stop extra outcome =>
            ⟨reqs ++ [.cursor pageSize mark, .offsetStyle pageSize offset],
              acc ++ extra, outcome⟩
          | .next yield newMark =>
            paginateLoop env pageSize maxPages fuel (page + 1) (offset + pageSize)
              newMark (reqs ++ [.cursor pageSize mark, .offsetStyle pageSize offset])
              (acc ++ yield)
        | .error _ =>
          ⟨reqs ++ [.cursor pageSize mark, .offsetStyle pageSize offset], acc, .raised⟩

/-- Entry point of `paginate`: page 0, offset 0, offset mark `"*"`
(base.py lines 187-189). -/
def paginate {R I : Type} (env : PaginateEnv R I) (pageSize : Nat)
    (maxPages : Option Nat) (fuel : Nat) : PagRun I :=
  paginateLoop env pageSize maxPages fuel 0 0 "*" [] []

/-- A fake upstream holding `allItems`, served in slices of `pageSize` items
through offset-style pagination; cursor-style requests are rejected (an
endpoint that rejects token-style parameters), the next-page descriptor is
always truthy and carries no offset mark, so the run ends on the first
empty page. -/
def offsetFakeEnv {I : Type} (allItems : List I) (pageSize : Nat) :
    PaginateEnv Nat I where
  get := fun req =>
    match req with
    | .cursor _ _ => .error ()
    | .offsetStyle _ offset => .ok offset
  extractItems := fun offset => (allItems.drop offset).take pageSize
  getNextPage := fun _ => some none

lemma offsetFakeEnv_loop {I : Type} (allItems : List I) (ps : Nat) (hps : 0 < ps) :
    ∀ (fuel offset page : Nat) (mark : String) (reqs : List PageRequest)
      (acc : List I), allItems.length - offset < fuel →
      (paginateLoop (offsetFakeEnv allItems ps) ps none fuel page offset mark
          reqs acc).items = acc ++ allItems.drop offset ∧
      (paginateLoop (offsetFakeEnv allItems ps) ps none fuel page offset mark
          reqs acc).outcome = .done
  | 0, offset, _, _, _, _, hfuel => absurd hfuel (by omega)
  | fuel + 1, offset, page, mark, reqs, acc, hfuel => by
    by_cases hoff : allItems.length ≤ offset
    · have hdrop : allItems.drop offset = [] := List.drop_eq_nil_of_le hoff
      simp [paginateLoop, maxReached, offsetFakeEnv, paginateHandle, hdrop]
    · push_neg at hoff
      have hne : ((allItems.drop offset).take ps).isEmpty = false := by
        have h1 : (allItems.drop offset).length = allItems.length - offset :=
          List.length_drop offset allItems
        have h2 : 0 < ((allItems.drop offset).take ps).length := by
          rw [List.length_take]
          omega
        cases h : (allItems.drop offset).take ps with
        | nil => rw [h] at h2; simp at h2
        | cons x xs => simp
      have hrec := offsetFakeEnv_loop allItems ps hps fuel (offset + ps)
        (page + 1) mark (reqs ++ [.cursor ps mark, .offsetStyle ps offset])
        (acc ++ (allItems.drop offset).take ps) (by omega)
      have hjoin : (acc ++ (allItems.drop offset).take ps) ++
          allItems.drop (offset + ps) = acc ++ allItems.drop offset := by
        rw [List.append_assoc]
        congr 1
        exact List.drop_take_append_drop allItems offset ps
      simp only [paginateLoop, maxReached, offsetFakeEnv, paginateHandle, hne,
        Bool.false_eq_true, if_false, Option.getD_none] at hrec ⊢
      rw [← hjoin]
      exact hrec

/-- C2: pagination yields every upstream item exactly once and terminates.
For a fake upstream serving the items of `allItems` in pages of `pageSize`
followed by an empty page, `paginate` yields exactly the items of
`allItems` and exits the loop (outcome `done`, for every sufficient fuel
bound, i.e. the loop terminates on its own).  In general the loop stops
when the extracted item list of a page is empty, when the next-page
descriptor extracted from the response is absent or falsy, or when
`max_pages` pages have been fetched; each of these is captured by one
conjunct on an arbitrary environment. -/
theorem paginate_yields_all_and_terminates {I R : Type}
    (allItems : List I) (ps fuel : Nat) (env : PaginateEnv R I)
    (mp mp2 : Option Nat) (page page2 offset offset2 : Nat)
    (mark mark2 : String) (reqs : List PageRequest) (acc : List I)
    (resp resp2 : R) (i : I) (tl : List I)
    (hps : 0 < ps) (hfuel : allItems.length < fuel)
    (hmp : maxReached mp page = false)
    (hcur : env.get (.cursor ps mark) = .ok resp)
    (hempty : env.extractItems resp = [])
    (hcur2 : env.get (.cursor ps mark2) = .ok resp2)
    (hitems : env.extractItems resp2 = i :: tl)
    (hnext : env.getNextPage resp2 = none)
    (hmax : maxReached mp2 page2 = true) :
    (paginate (offsetFakeEnv allItems ps) ps none fuel).items = allItems ∧
    (paginate (offsetFakeEnv allItems ps) ps none fuel).outcome = .done ∧
    paginateLoop env ps mp (fuel + 1) page offset mark reqs acc
      = ⟨reqs ++ [.cursor ps mark], acc, .done⟩ ∧
    paginateLoop env ps mp (fuel + 1) page offset2 mark2 reqs acc
      = ⟨reqs ++ [.cursor ps mark2], acc ++ (i :: tl), .done⟩ ∧
    paginateLoop env ps mp2 (fuel + 1) page2 offset mark reqs acc
      = ⟨reqs, acc, .done⟩ := by
  have hfake := offsetFakeEnv_loop allItems ps hps fuel 0 0 "*" [] []
    (by omega)
  refine ⟨by simpa [paginate] using hfake.1, by simpa [paginate] using hfake.2,
    ?_, ?_, ?_⟩
  · simp [paginateLoop, hmp, hcur, paginateHandle, hempty]
  · simp [paginateLoop, hmp, hcur2, paginateHandle, hitems, hnext]
  · simp [paginateLoop, hmax]

/-- Concrete environment for the witness of C2: mark `"em"` leads to a page
with no items, mark `"fn"` to a page with one item and a falsy next-page
descriptor. -/
def paginateWitnessEnv : PaginateEnv Nat Nat where
  get := fun req =>
    match req with
    | .cursor _ m => if m = "em" then .ok 0 else if m = "fn" then .ok 1 else .error ()
    | .offsetStyle _ _ => .error ()
  extractItems := fun r => if r = 1 then [7] else []
  getNextPage := fun _ => none

/-- Witness for C2 at a concrete fake upstream of three items with page
size two, and concrete stopping scenarios. -/
theorem paginate_yields_all_and_terminates_witness :
    (paginate (offsetFakeEnv [10, 20, 30] 2) 2 none 4).items = [10, 20, 30] ∧
    (paginate (offsetFakeEnv [10, 20, 30] 2) 2 none 4).outcome = .done ∧
    paginateLoop paginateWitnessEnv 2 none 5 0 0 "em" [] []
      = ⟨[.cursor 2 "em"], [], .done⟩ ∧
    paginateLoop paginateWitnessEnv 2 none 5 0 0 "fn" [] []
      = ⟨[.cursor 2 "fn"], [7], .done⟩ ∧
    paginateLoop paginateWitnessEnv 2 (some 0) 5 0 0 "em" [] []
      = ⟨[], [], .done⟩ :=
  paginate_yields_all_and_terminates [10, 20, 30] 2 4 paginateWitnessEnv
    none (some 0) 0 0 0 0 "em" "fn" [] [] 0 1 7 []
    (by decide) (by decide) rfl rfl rfl rfl rfl rfl rfl

/-- C7: per page request, cursor-style pagination is attempted first; the
offset-style fallback request is issued for that same page exactly when the
cursor-style request fails (first and second conjuncts); if the fallback
fails as well, the exception propagates and no third attempt is made (third
conjunct); once a response is obtained, item extraction and next-page
extraction are delegated to the two hook methods of the client (fourth
conjunct, the page-handling step written out in terms of the two hooks). -/
theorem paginate_cursor_first_fallback_once {R I : Type}
    (env : PaginateEnv R I) (ps fuel page offset1 offset2 offset3 : Nat)
    (mp : Option Nat) (mark1 mark2 mark3 markD : String)
    (reqs : List PageRequest) (acc : List I) (respA respB respD : R)
    (hmp : maxReached mp page = false)
    (h1 : env.get (.cursor ps mark1) = .ok respA)
    (h2 : env.get (.cursor ps mark2) = .error ())
    (h3 : env.get (.offsetStyle ps offset2) = .ok respB)
    (h4 : env.get (.cursor ps mark3) = .error ())
    (h5 : env.get (.offsetStyle ps offset3) = .error ()) :
    (paginateLoop env ps mp (fuel + 1) page offset1 mark1 reqs acc =
      match paginateHandle env mark1 respA with
      | .stop extra outcome => ⟨reqs ++ [.cursor ps mark1], acc ++ extra, outcome⟩
      | .next yield newMark =>
        paginateLoop env ps mp fuel (page + 1) (offset1 + ps) newMark
          (reqs ++ [.cursor ps mark1]) (acc ++ yield)) ∧
    (paginateLoop env ps mp (fuel + 1) page offset2 mark2 reqs acc =
      match paginateHandle env mark2 respB with
      | .stop extra outcome =>
        ⟨reqs ++ [.cursor ps mark2, .offsetStyle ps offset2], acc ++ extra, outcome⟩
      | .next yield newMark =>
        paginateLoop env ps mp fuel (page + 1) (offset2 + ps) newMark
          (reqs ++ [.cursor ps mark2, .offsetStyle ps offset2]) (acc ++ yield)) ∧
    (paginateLoop env ps mp (fuel + 1) page offset3 mark3 reqs acc =
      ⟨reqs ++ [.cursor ps mark3, .offsetStyle ps offset3], acc, .raised⟩) ∧
    (paginateHandle env markD respD =
      if (env.extractItems respD).isEmpty then .stop [] .done
      else
        match env.getNextPage respD with
        | none => .stop (env.extractItems respD) .done
        | some mark? => .next (env.extractItems respD) (mark?.getD markD)) := by
  refine ⟨?_, ?_, ?_, ?_⟩
  · simp [paginateLoop, hmp, h1]
  · simp [paginateLoop, hmp, h2, h3]
  · simp [paginateLoop, hmp, h4, h5]
  · rfl

/-- Concrete environment for the witness of C7: the cursor request succeeds
only for mark `"ok"`, the offset-style request succeeds only at offset 5. -/
def fallbackWitnessEnv : PaginateEnv Nat Nat where
  get := fun req =>
    match req with
    | .cursor _ m => if m = "ok" then .ok 0 else .error ()
    | .offsetStyle _ offset => if offset = 5 then .ok 1 else .error ()
  extractItems := fun r => if r = 1 then [3] else []
  getNextPage := fun _ => none

/-- Witness for C7 at concrete marks and offsets covering the three request
scenarios and the hook-delegation equation. -/
theorem paginate_cursor_first_fallback_once_witness :
    (paginateLoop fallbackWitnessEnv 2 none 4 0 0 "ok" [] [] =
      ⟨[.cursor 2 "ok"], [], .done⟩) ∧
    (paginateLoop fallbackWitnessEnv 2 none 4 0 5 "zz" [] [] =
      ⟨[.cursor 2 "zz", .offsetStyle 2 5], [3], .done⟩) ∧
    (paginateLoop fallbackWitnessEnv 2 none 4 0 7 "qq" [] [] =
      ⟨[.cursor 2 "qq", .offsetStyle 2 7], [], .raised⟩) ∧
    (paginateHandle fallbackWitnessEnv "m" 0 = .stop [] .done) :=
  paginate_cursor_first_fallback_once fallbackWitnessEnv 2 3 0 0 5 7
    none "ok" "zz" "qq" "m" [] [] 0 1 0
    rfl rfl rfl rfl rfl rfl

/-! ## Section 3: request execution

`BaseAPIClient._make_request` (base.py, lines 85-137) builds the URL from
the base URL and the endpoint, merges the prepared query parameters into
the given ones (`params.update(self._prepare_params(**kwargs))`), issues
the HTTP request, and then: a 503 response carrying a Retry-After header
causes a sleep of exactly that many seconds followed by a recursive call to
the decorated `_make_request` with the same endpoint, method, parameters
and body (lines 129-134); any other response with status at least 400
raises (`raise_for_status`), and the tenacity decorator
`retry(stop=stop_after_attempt(3), wait=wait_exponential(multiplier=1,
min=4, max=10))` re-invokes the whole body for a raised exception with
exponential waits, at most three attempts per invocation.  Because the
recursive 503 call re-enters the decorated method, it starts a fresh
three-attempt budget.  The decorator `sleep_and_retry` from the ratelimit
package is also applied (line 85), but the companion `limits` decorator is
imported and never applied, so `sleep_and_retry` has nothing to catch and
is the identity wrapper; the constructor fields `rate_limit_calls` and
`rate_limit_period` (lines 51-52) are stored and never read.

The environment is modelled by a wire: the list of responses the network
will deliver to successive physical requests, consumed from the front; an
empty wire means the next physical request fails at the connection level.
The result of a call is the list of observable events (requests issued and
sleeps performed, in order), the remaining wire, and either the final
response or the status of the exception escaping the call (0 standing for
a connection-level error).  The recursion is driven by a fuel argument;
`wire.length + stopAttempts` fuel is always sufficient since every step
consumes a response or decrements the attempt budget. -/

/-- One HTTP response: the status code and the parsed optional Retry-After
header. -/
structure HResp where
  status : Nat
  retryAfter : Option Nat
deriving DecidableEq

/-- The configuration state of `BaseAPIClient.__init__` (base.py lines
31-56) together with the two abstract preparation hooks of the subclass
(`_prepare_headers` and `_prepare_params`, deterministic per client). -/
structure BaseAPIClient where
  apiKey : String
  baseUrl : String
  rateLimitCalls : Nat
  rateLimitPeriod : Nat
  maxRetries : Nat
  prepHeaders : List (String × String)
  prepParams : List (String × String)

/-- Right-biased dictionary update, the semantics of `params.update(q)`:
keys of `q` override keys of `p`. -/
def updateParams (p q : List (String × String)) : List (String × String) :=
  (p.filter fun kv => !(q.any fun qv => decide (qv.1 = kv.1))) ++ q

lemma updateParams_idem (p q : List (String × String)) :
    updateParams (updateParams p q) q = updateParams p q := by
  unfold updateParams
  rw [List.filter_append]
  have h1 : (q.filter fun kv => !(q.any fun qv => decide (qv.1 = kv.1))) = [] := by
    rw [List.filter_eq_nil_iff]
    intro kv hkv
    have h : (q.any fun qv => decide (qv.1 = kv.1)) = true :=
      List.any_eq_true.mpr ⟨kv, hkv, decide_eq_true rfl⟩
    simp [h]
  have h2 : ((p.filter fun kv => !(q.any fun qv => decide (qv.1 = kv.1))).filter
      fun kv => !(q.any fun qv => decide (qv.1 = kv.1)))
      = p.filter fun kv => !(q.any fun qv => decide (qv.1 = kv.1)) := by
    rw [List.filter_eq_self]
    intro a ha
    exact (List.mem_filter.mp ha).2
  rw [h1, h2, List.append_nil]

/-- The observable description of one issued request: method, URL, headers,
merged query parameters and body. -/
structure ReqRecord where
  method : String
  url : String
  headers : List (String × String)
  params : List (String × String)
  data : Option (List (String × String))
deriving DecidableEq

/-- The request built by the body of `_make_request` (base.py lines
111-127): URL from base URL and endpoint, headers from the header hook,
parameters merged with the parameter hook, body passed through. -/
def mkReq (c : BaseAPIClient) (endpoint method : String)
    (params : List (String × String))
    (data : Option (List (String × String))) : ReqRecord :=
  { method := method
    url := c.baseUrl ++ "/" ++ endpoint
    headers := c.prepHeaders
    params := updateParams params c.prepParams
    data := data }

/-- Observable events of a transport call. -/
inductive Ev
  | request (r : ReqRecord)
  | sleep (seconds : Nat)
deriving DecidableEq

/-- Recognizer for sleep events. -/
def Ev.isSleep : Ev → Bool
  | .sleep _ => true
  | .request _ => false

/-- `stop_after_attempt(3)` of the tenacity decorator (base.py line 86). -/
def stopAttempts : Nat := 3

/-- `wait_exponential(multiplier=1, min=4, max=10)` after the given failed
attempt number (base.py line 86). -/
def tenacityWait (attempt : Nat) : Nat := max 4 (min (2 ^ attempt) 10)

/-- The decorated `_make_request` over a wire of responses.  `budget` is the
number of attempts the tenacity wrapper of the current invocation still
allows (including the one being made).  A 503 response with a Retry-After
header sleeps exactly that many seconds and re-enters the decorated method
with the same request and a fresh attempt budget; if that nested call
ultimately raises, the exception reaches the tenacity wrapper of this
invocation, which consumes one generic attempt, waits, and re-issues the
request.  Any other response below 400 is returned; any other response at
400 or above raises into the tenacity wrapper. -/
def makeRequestAux (c : BaseAPIClient) (endpoint method : String)
    (data : Option (List (String × String))) :
    Nat → Nat → List (String × String) → List HResp →
      List Ev × List HResp × Except Nat HResp
  | 0, _, _, wire => ([], wire, .error 0)
  | fuel + 1, budget, params, wire =>
    let r := mkReq c endpoint method params data
    match wire with
    | [] =>
      if budget ≤ 1 then ([.request r], [], .error 0)
      else
        let rec1 := makeRequestAux c endpoint method data fuel (budget - 1) params []
        (.request r :: .sleep (tenacityWait (stopAttempts - budget + 1)) :: rec1.1,
          rec1.2.1, rec1.2.2)
    | resp :: rest =>
      if resp.status = 503 ∧ resp.retryAfter.isSome then
        let t := resp.retryAfter.getD 30
        let nested := makeRequestAux c endpoint method data fuel stopAttempts
          (updateParams params c.prepParams) rest
        match nested.2.2 with
        | .ok x => (.request r :: .sleep t :: nested.1, nested.2.1, .ok x)
        | .error s =>
          if budget ≤ 1 then
            (.request r :: .sleep t :: nested.1, nested.2.1, .error s)
          else
            let rec2 := makeRequestAux c endpoint method data fuel (budget - 1)
              params nested.2.1
            (.request r :: .sleep t :: nested.1 ++
                .sleep (tenacityWait (stopAttempts - budget + 1)) :: rec2.1,
              rec2.2.1, rec2.2.2)
      else if resp.status < 400 then ([.request r], rest, .ok resp)
      else
        if budget ≤ 1 then ([.request r], rest, .error resp.status)
        else
          let rec3 := makeRequestAux c endpoint method data fuel (budget - 1) params rest
          (.request r :: .sleep (tenacityWait (stopAttempts - budget + 1)) :: rec3.1,
            rec3.2.1, rec3.2.2)

/-- Entry point: one call of the decorated `_make_request`, with a fresh
tenacity attempt budget and sufficient fuel for the wire. -/
def makeRequest (c : BaseAPIClient) (endpoint method : String)
    (params : List (String × String)) (data : Option (List (String × String)))
    (wire : List HResp) : List Ev × List HResp × Except Nat HResp :=
  makeRequestAux c endpoint method data (wire.length + stopAttempts)
    stopAttempts params wire

lemma makeRequestAux_503_retry (c : BaseAPIClient) (endpoint method : String)
    (params : List (String × String)) (data : Option (List (String × String)))
    (t fuel budget : Nat) (r2 : HResp) (rest : List HResp)
    (h2 : r2.status < 400) :
    makeRequestAux c endpoint method data (fuel + 2) budget params
        ({ status := 503, retryAfter := some t } :: r2 :: rest)
      = ([.request (mkReq c endpoint method params data), .sleep t,
          .request (mkReq c endpoint method params data)], rest, .ok r2) := by
  have hn503 : ¬(r2.status = 503 ∧ r2.retryAfter.isSome = true) := by
    rintro ⟨h503, -⟩
    omega
  simp [makeRequestAux, hn503, h2, mkReq, updateParams_idem]

/-- C3: a 503 response carrying a Retry-After header makes the transport
sleep exactly that many seconds and then retry the full request exactly
once more; the retried request is identical to the original (same method,
URL, headers, parameters and body, the single `mkReq` record appearing
twice in the trace), and the retry does not consume the generic tenacity
retry budget: the equation holds for every remaining budget, including
zero.  The second conjunct restates it for the decorated entry point with
its fresh default budget. -/
theorem retry_after_503_honored (c : BaseAPIClient) (endpoint method : String)
    (params : List (String × String)) (data : Option (List (String × String)))
    (t fuel budget : Nat) (r2 : HResp) (rest : List HResp)
    (h2 : r2.status < 400) :
    makeRequestAux c endpoint method data (fuel + 2) budget params
        ({ status := 503, retryAfter := some t } :: r2 :: rest)
      = ([.request (mkReq c endpoint method params data), .sleep t,
          .request (mkReq c endpoint method params data)], rest, .ok r2) ∧
    makeRequest c endpoint method params data
        ({ status := 503, retryAfter := some t } :: r2 :: rest)
      = ([.request (mkReq c endpoint method params data), .sleep t,
          .request (mkReq c endpoint method params data)], rest, .ok r2) := by
  exact ⟨makeRequestAux_503_retry c endpoint method params data t fuel budget
    r2 rest h2,
    makeRequestAux_503_retry c endpoint method params data t
      (rest.length + 3) stopAttempts r2 rest h2⟩

/-- A concrete client configuration for the witnesses of this section. -/
def demoClient : BaseAPIClient where
  apiKey := "key"
  baseUrl := "https://api.example.gov"
  rateLimitCalls := 100
  rateLimitPeriod := 3600
  maxRetries := 3
  prepHeaders := [("Accept", "application/json")]
  prepParams := [("api_key", "key")]

/-- Witness for C3: a wire carrying a 503 with Retry-After 2 followed by a
200, with zero remaining generic budget. -/
theorem retry_after_503_honored_witness :
    makeRequestAux demoClient "collections" "GET" none 2 0 []
        [{ status := 503, retryAfter := some 2 }, { status := 200, retryAfter := none }]
      = ([.request (mkReq demoClient "collections" "GET" [] none), .sleep 2,
          .request (mkReq demoClient "collections" "GET" [] none)], [],
          .ok { status := 200, retryAfter := none }) ∧
    makeRequest demoClient "collections" "GET" [] none
        [{ status := 503, retryAfter := some 2 }, { status := 200, retryAfter := none }]
      = ([.request (mkReq demoClient "collections" "GET" [] none), .sleep 2,
          .request (mkReq demoClient "collections" "GET" [] none)], [],
          .ok { status := 200, retryAfter := none }) :=
  retry_after_503_honored demoClient "collections" "GET" [] none 2 0 0
    { status := 200, retryAfter := none } [] (by decide)

/-- A client configured for at most one call per hour: the stored fields
are never consulted by the request path (base.py stores them at lines
51-52 and never reads them; the `limits` decorator that would enforce them
is imported at line 21 but never applied). -/
def bugClient : BaseAPIClient where
  apiKey := "key"
  baseUrl := "https://api.example.gov"
  rateLimitCalls := 1
  rateLimitPeriod := 3600
  maxRetries := 3
  prepHeaders := []
  prepParams := []

/-- A plain successful response. -/
def okResp : HResp := { status := 200, retryAfter := none }

/-- C4 is refuted by the code: with `rate_limit_calls = 1` and
`rate_limit_period = 3600`, two back-to-back calls both execute
immediately and their combined event traces contain no sleep at all, so
the second call is not delayed to the window boundary.  The `ratelimit`
`limits` decorator is imported but never applied, `sleep_and_retry` alone
never fires, and the stored rate-limit fields are never read, contradicting
the docstrings of `__init__` and `_make_request`. -/
theorem rate_limit_not_enforced :
    bugClient.rateLimitCalls = 1 ∧ bugClient.rateLimitPeriod = 3600 ∧
    makeRequest bugClient "bills" "GET" [] none [okResp, okResp]
      = ([.request (mkReq bugClient "bills" "GET" [] none)], [okResp], .ok okResp) ∧
    makeRequest bugClient "bills" "GET" [] none [okResp]
      = ([.request (mkReq bugClient "bills" "GET" [] none)], [], .ok okResp) ∧
    ((makeRequest bugClient "bills" "GET" [] none [okResp, okResp]).1 ++
        (makeRequest bugClient "bills" "GET" [] none [okResp]).1).filter Ev.isSleep
      = [] := by
  refine ⟨rfl, rfl, ?_, ?_, ?_⟩ <;> rfl

/-! ## Section 4: connection and transaction discipline

`DatabaseManager.get_connection` (database.py lines 91-103) takes a
connection from the pool and returns it to the pool in a `finally` block;
`get_cursor` (lines 105-127) opens a cursor on such a connection, yields it
to the body, commits on normal completion, and on any exception rolls back
and re-raises the original exception, closing the cursor in a `finally`
block.  `execute_query` (lines 148-169), `bulk_insert` (lines 171-204) and
`upsert` (lines 206-246) each wrap exactly one `get_cursor` block, so each
sink call is one scoped connection acquisition and one transaction;
`bulk_insert` and `upsert` return 0 before entering the block when the
values list is empty (lines 190-191 and 227-228).  The body of the block
(the SQL execution against the database) is abstracted as an `Except`
value: its `ok` result is the cursor rowcount, its `error` the raised
exception. -/

/-- Observable events of one sink call against pool and connection. -/
inductive DbEv
  | getconn
  | commit
  | rollback
  | cursorClose
  | putconn
deriving DecidableEq

/-- Trace semantics of `get_connection` wrapping `get_cursor` around a
body: acquire, run the body, commit on success or roll back on exception
re-raising it unchanged, close the cursor, return the connection. -/
def withCursorTrace {E A : Type} (body : Except E A) : List DbEv × Except E A :=
  match body with
  | .ok a => ([.getconn, .commit, .cursorClose, .putconn], .ok a)
  | .error e => ([.getconn, .rollback, .cursorClose, .putconn], .error e)

/-- `DatabaseManager.bulk_insert`: immediate 0 for an empty values list,
otherwise one cursor-scoped execution of the INSERT statement. -/
def bulkInsert {α E : Type} (values : List (List α)) (exec : Except E Nat) :
    List DbEv × Except E Nat :=
  if values.isEmpty then ([], .ok 0) else withCursorTrace exec

/-- `DatabaseManager.upsert`, connection-level view: immediate 0 for an
empty values list, otherwise one cursor-scoped execution of the upsert
statement (whose effect on the stored table is `upsertTable`). -/
def upsertCall {α E : Type} (values : List (List α)) (exec : Except E Nat) :
    List DbEv × Except E Nat :=
  if values.isEmpty then ([], .ok 0) else withCursorTrace exec

/-- `DatabaseManager.execute_query`: one cursor-scoped execution. -/
def executeQuery {E A : Type} (exec : Except E A) : List DbEv × Except E A :=
  withCursorTrace exec

/-- C6: every sink call is its own transaction.  A successful body commits
exactly once and never rolls back; a raising body rolls back exactly once,
never commits, and the original exception is re-raised unchanged; in both
cases exactly one connection is acquired and it is returned to the pool;
and each of `bulk_insert`, `upsert` and `execute_query` (on a non-empty
values list for the first two) is exactly one such cursor-scoped
transaction. -/
theorem sink_transaction_discipline {α E A : Type} (a : A) (e : E)
    (r : Except E A) (values : List (List α)) (exec : Except E Nat)
    (hv : values ≠ []) :
    withCursorTrace (.ok a : Except E A)
      = ([.getconn, .commit, .cursorClose, .putconn], .ok a) ∧
    withCursorTrace (.error e : Except E A)
      = ([.getconn, .rollback, .cursorClose, .putconn], .error e) ∧
    bulkInsert values exec = withCursorTrace exec ∧
    upsertCall values exec = withCursorTrace exec ∧
    executeQuery exec = withCursorTrace exec ∧
    (withCursorTrace r).1.count .getconn = 1 ∧
    (withCursorTrace r).1.count .putconn = 1 := by
  have hne : values.isEmpty = false := by
    cases values with
    | nil => exact absurd rfl hv
    | cons x xs => rfl
  refine ⟨rfl, rfl, ?_, ?_, rfl, ?_, ?_⟩
  · simp [bulkInsert, hne]
  · simp [upsertCall, hne]
  · cases r <;> rfl
  · cases r <;> rfl

/-- Witness for C6 at a concrete successful and a concrete failing body. -/
theorem sink_transaction_discipline_witness :
    withCursorTrace (.ok 7 : Except String Nat)
      = ([.getconn, .commit, .cursorClose, .putconn], .ok 7) ∧
    withCursorTrace (.error "constraint violation" : Except String Nat)
      = ([.getconn, .rollback, .cursorClose, .putconn],
          .error "constraint violation") ∧
    bulkInsert [[1, 2]] (.ok 1 : Except String Nat) = withCursorTrace (.ok 1) ∧
    upsertCall [[1, 2]] (.ok 1 : Except String Nat) = withCursorTrace (.ok 1) ∧
    executeQuery (.ok 1 : Except String Nat) = withCursorTrace (.ok 1) ∧
    (withCursorTrace (.ok 7 : Except String Nat)).1.count .getconn = 1 ∧
    (withCursorTrace (.ok 7 : Except String Nat)).1.count .putconn = 1 :=
  sink_transaction_discipline 7 "constraint violation" (.ok 7) [[1, 2]]
    (.ok 1) (by decide)

/-- C10: calling `bulk_insert` or `upsert` with an empty rows list returns
0 and performs no database work: the event trace is empty (no connection
acquired, no SQL issued) and the stored table is unchanged. -/
theorem empty_rows_no_database_work {α E : Type} [DecidableEq α]
    (exec1 exec2 : Except E Nat)
    (columns conflictCols updateCols : List String) (table : List (List α)) :
    bulkInsert ([] : List (List α)) exec1 = ([], .ok 0) ∧
    upsertCall ([] : List (List α)) exec2 = ([], .ok 0) ∧
    upsertTable columns conflictCols updateCols table [] = table :=
  ⟨rfl, rfl, rfl⟩

/-! ## Section 5: progress and error accounting

`IngestionStats` (progress.py lines 18-29) carries counters, timestamps
and the list of recorded error strings; `ProgressReporter` mutates one
such record.  Timestamps are modelled as abstract `Nat` instants and the
float success rate as an exact rational.  `record_error` (lines 136-145)
always appends the message to `stats.errors`; the guard
`len(self.stats.errors) <= 10` only limits which messages are written to
the logger, so the reporter state is the stats plus the emitted log
stream.  `to_dict` (lines 49-62) renders the stats into a dictionary whose
entries are listed in source order; `print_summary` (lines 157-189) prints
the summary lines, with the error block present exactly when errors were
recorded (the two Python guards `error_count > 0` and `self.stats.errors`
coincide) and showing `errors[:5]` numbered from 1. -/

/-- The statistics record of one ingestion run. -/
structure IngestionStats where
  startTime : Nat
  endTime : Option Nat
  totalItems : Nat
  processedItems : Nat
  successfulItems : Nat
  failedItems : Nat
  skippedItems : Nat
  errors : List String
deriving DecidableEq

/-- Fresh statistics at instant `now` (the dataclass defaults). -/
def initStats (now : Nat) : IngestionStats :=
  { startTime := now, endTime := none, totalItems := 0, processedItems := 0,
    successfulItems := 0, failedItems := 0, skippedItems := 0, errors := [] }

/-- A `ProgressReporter`: its stats and the log lines it has emitted. -/
structure Reporter where
  stats : IngestionStats
  log : List String
deriving DecidableEq

/-- A fresh reporter. -/
def initReporter (now : Nat) : Reporter := { stats := initStats now, log := [] }

/-- `ProgressReporter.update` (progress.py lines 110-119). -/
def updateProgress (r : Reporter) (n : Nat) : Reporter :=
  { r with stats := { r.stats with processedItems := r.stats.processedItems + n } }

/-- `ProgressReporter.record_success` (lines 121-124). -/
def recordSuccess (r : Reporter) : Reporter :=
  updateProgress
    { r with stats := { r.stats with
        successfulItems := r.stats.successfulItems + 1 } } 1

/-- `ProgressReporter.record_failure` (lines 126-129). -/
def recordFailure (r : Reporter) : Reporter :=
  updateProgress
    { r with stats := { r.stats with
        failedItems := r.stats.failedItems + 1 } } 1

/-- `ProgressReporter.record_error` (lines 136-145): always append to the
stats error list; emit to the log only while the list has at most 10
entries. -/
def recordError (r : Reporter) (e : String) : Reporter :=
  let stats := { r.stats with errors := r.stats.errors ++ [e] }
  { stats := stats
    log := if stats.errors.length ≤ 10 then r.log ++ [e] else r.log }

/-- `IngestionStats.duration` (lines 35-40) in whole seconds. -/
def duration (st : IngestionStats) (now : Nat) : Nat :=
  match st.endTime with
  | some e => e - st.startTime
  | none => now - st.startTime

/-- `IngestionStats.success_rate` (lines 42-47), as an exact rational
percentage. -/
def successRate (st : IngestionStats) : ℚ :=
  if st.processedItems = 0 then 0
  else (st.successfulItems * 100 : ℚ) / st.processedItems

/-- Rounding to two decimal places, the `round(x, 2)` of `to_dict`. -/
def round2 (v : ℚ) : ℚ := (⌊v * 100 + 1 / 2⌋ : ℚ) / 100

/-- Values appearing in the stats dictionary. -/
inductive JVal
  | s (v : String)
  | n (v : Nat)
  | q (v : ℚ)
  | null
deriving DecidableEq

/-- `IngestionStats.to_dict` (lines 49-62): the entries in source order.
There is no `errors` entry; only `error_count` is exposed. -/
def toDict (st : IngestionStats) (now : Nat) : List (String × JVal) :=
  [("start_time", .n st.startTime),
   ("end_time", match st.endTime with | some e => .n e | none => .null),
   ("duration_seconds", .n (duration st now)),
   ("total_items", .n st.totalItems),
   ("processed_items", .n st.processedItems),
   ("successful_items", .n st.successfulItems),
   ("failed_items", .n st.failedItems),
   ("skipped_items", .n st.skippedItems),
   ("success_rate", .q (round2 (successRate st))),
   ("error_count", .n st.errors.length)]

/-- `ProgressReporter.get_stats` (lines 182-189) returns `to_dict`. -/
def getStats (r : Reporter) (now : Nat) : List (String × JVal) :=
  toDict r.stats now

/-- Deterministic rendering of a rational for the summary text. -/
def showRat (v : ℚ) : String := toString v.num ++ "/" ++ toString v.den

/-- The 80-character separator line of the summary. -/
def eqLine : String := String.mk (List.replicate 80 '=')

/-- The numbered `errors[:5]` block of `print_summary` (lines 176-178). -/
def errorDetailLines (st : IngestionStats) : List String :=
  (st.errors.take 5).enum.map fun p => "  " ++ toString (p.1 + 1) ++ ". " ++ p.2

/-- `ProgressReporter.print_summary` (lines 157-180) as the list of printed
lines. -/
def printSummary (st : IngestionStats) (now : Nat) : List String :=
  ([eqLine, "INGESTION SUMMARY", eqLine,
    "Duration: " ++ toString (duration st now) ++ " seconds",
    "Total Items: " ++ toString st.totalItems,
    "Processed: " ++ toString st.processedItems,
    "Successful: " ++ toString st.successfulItems,
    "Failed: " ++ toString st.failedItems,
    "Skipped: " ++ toString st.skippedItems,
    "Success Rate: " ++ showRat (round2 (successRate st)) ++ "%"]
  ++ (if st.errors.length = 0 then []
      else ["Errors encountered: " ++ toString st.errors.length,
            "First few errors:"] ++ errorDetailLines st))
  ++ [eqLine]

lemma recordError_foldl :
    ∀ (msgs : List String) (r : Reporter),
      (msgs.foldl recordError r).stats.errors = r.stats.errors ++ msgs ∧
      (msgs.foldl recordError r).log
        = r.log ++ msgs.take (10 - r.stats.errors.length) ∧
      (msgs.foldl recordError r).stats.failedItems = r.stats.failedItems
  | [], r => by simp
  | m :: ms, r => by
    have ih := recordError_foldl ms (recordError r m)
    simp only [List.foldl_cons] at ih ⊢
    refine ⟨?_, ?_, ?_⟩
    · rw [ih.1]
      simp [recordError]
    · rw [ih.2.1]
      by_cases hk : r.stats.errors.length ≤ 9
    
      · have h1 : recordError r m = { stats := { r.stats with
            errors := r.stats.errors ++ [m] }, log := r.log ++ [m] } := by
          simp only [recordError]
          rw [if_pos (by simp; omega)]
        rw [h1]
        have h2 : 10 - r.stats.errors.length
            = (10 - (r.stats.errors ++ [m]).length) + 1 := by
          simp
          omega
        rw [h2, List.take_succ_cons]
        simp
      · have h1 : recordError r m = { stats := { r.stats with
            errors := r.stats.errors ++ [m] }, log := r.log } := by
          simp only [recordError]
          rw [if_neg (by simp; omega)]
        rw [h1]
        have h2 : 10 - r.stats.errors.length = 0 := by omega
        rw [h2]
        simp
        exact Or.inl (by omega)
    · rw [ih.2.2]
      simp [recordError]

/-- Eleven distinct error messages. -/
def elevenErrors : List String :=
  ["e1", "e2", "e3", "e4", "e5", "e6", "e7", "e8", "e9", "e10", "e11"]

/-- Counterexample to C8 as stated: after eleven `record_error` calls the
stats error list holds all eleven strings, not only the first ten, so the
stored error list is not bounded at 10. -/
theorem error_list_not_capped_counterexample :
    ((elevenErrors.foldl recordError (initReporter 0)).stats.errors).length = 11 ∧
    ¬((elevenErrors.foldl recordError (initReporter 0)).stats.errors).length ≤ 10 := by
  constructor <;> decide

/-- C8 amended: `record_error` keeps every detailed error string in the
stats error list, in order and without bound; only the first 10 messages
are emitted to the log; and `record_error` itself does not alter the
failure counter (failures are counted separately by `record_failure`). -/
theorem record_error_keeps_all_logs_first_ten (msgs : List String) (now : Nat) :
    (msgs.foldl recordError (initReporter now)).stats.errors = msgs ∧
    (msgs.foldl recordError (initReporter now)).log = msgs.take 10 ∧
    (msgs.foldl recordError (initReporter now)).stats.failedItems = 0 := by
  have h := recordError_foldl msgs (initReporter now)
  simpa [initReporter, initStats] using h

/-- Stats of a run with one recorded error message. -/
def statsOneErrorA : IngestionStats :=
  { startTime := 0, endTime := some 10, totalItems := 1, processedItems := 1,
    successfulItems := 0, failedItems := 1, skippedItems := 0,
    errors := ["Bill 1: boom"] }

/-- The same stats with a different recorded error message. -/
def statsOneErrorB : IngestionStats :=
  { statsOneErrorA with errors := ["Bill 2: crash"] }

/-- Counterexample to C9 as stated: two runs with different recorded error
messages produce identical `get_stats` dictionaries (the dictionary has an
`error_count` entry but no `errors` entry), so the full list of error
messages is not available through `get_stats`. -/
theorem get_stats_loses_error_messages :
    statsOneErrorA.errors ≠ statsOneErrorB.errors ∧
    toDict statsOneErrorA 10 = toDict statsOneErrorB 10 ∧
    (toDict statsOneErrorA 10).map Prod.fst
      = ["start_time", "end_time", "duration_seconds", "total_items",
         "processed_items", "successful_items", "failed_items",
         "skipped_items", "success_rate", "error_count"] :=
  ⟨by decide, rfl, rfl⟩

/-- C9 amended: the printed summary reports duration, totals, processed,
successes, failures, skips, the success rate, and a numbered block of at
most 5 example error messages (the first `min 5 n` recorded ones, appearing
as a contiguous subsequence of the output); `get_stats` exposes the error
count but not the error messages themselves, whose full list lives only in
the `errors` field of the stats object. -/
theorem summary_reports_stats_and_first_five_errors
    (st : IngestionStats) (now : Nat) :
    ("Duration: " ++ toString (duration st now) ++ " seconds")
      ∈ printSummary st now ∧
    ("Total Items: " ++ toString st.totalItems) ∈ printSummary st now ∧
    ("Processed: " ++ toString st.processedItems) ∈ printSummary st now ∧
    ("Successful: " ++ toString st.successfulItems) ∈ printSummary st now ∧
    ("Failed: " ++ toString st.failedItems) ∈ printSummary st now ∧
    ("Skipped: " ++ toString st.skippedItems) ∈ printSummary st now ∧
    ("Success Rate: " ++ showRat (round2 (successRate st)) ++ "%")
      ∈ printSummary st now ∧
    List.Sublist (errorDetailLines st) (printSummary st now) ∧
    (errorDetailLines st).length = min 5 st.errors.length ∧
    (toDict st now).map Prod.fst
      = ["start_time", "end_time", "duration_seconds", "total_items",
         "processed_items", "successful_items", "failed_items",
         "skipped_items", "success_rate", "error_count"] ∧
    (toDict st now).lookup "error_count" = some (.n st.errors.length) := by
  refine ⟨?_, ?_, ?_, ?_, ?_, ?_, ?_, ?_, ?_, rfl, rfl⟩
  · simp [printSummary]
  · simp [printSummary]
  · simp [printSummary]
  · simp [printSummary]
  · simp [printSummary]
  · simp [printSummary]
  · simp [printSummary]
  · by_cases h : st.errors.length = 0
    · have he : st.errors = [] := List.length_eq_zero.mp h
      have hd : errorDetailLines st = [] := by simp [errorDetailLines, he]
      simp [hd]
    · unfold printSummary
      rw [if_neg h]
      refine List.Sublist.trans (List.Sublist.trans ?_
        (List.sublist_append_right _ _)) (List.sublist_append_left _ _)
      exact List.sublist_append_right _ _
  · simp [errorDetailLines]

/-! ### The Persisting loop of ingest_bills

`ingest_bills` (scripts/congress/ingest_bills.py, lines 146-203) iterates
over the fetched bills inside `progress.track`; for each bill it maps the
raw item to one row tuple (a computation that may raise, e.g. on a
malformed date) and records a success, appending the row to `values`; on
any exception it records a failure and one formatted error message
(`Bill {number}: {error}`) and continues with the next bill.  The mapping
is abstracted as a function into `Except`; the third component of the
accumulator records the bills attempted, in iteration order. -/

/-- Membership test for the `ok` side of an `Except`. -/
def isOkB {ε ρ : Type} : Except ε ρ → Bool
  | .ok _ => true
  | .error _ => false

/-- One iteration of the Persisting loop: try the mapping, on success
append the row and record a success, on an exception record a failure and
the formatted error message; either way the bill was attempted. -/
def processBill {β ρ : Type} (mapBill : β → Except String ρ)
    (billNum : β → String) (acc : List ρ × Reporter × List β) (bill : β) :
    List ρ × Reporter × List β :=
  match mapBill bill with
  | .ok row => (acc.1 ++ [row], recordSuccess acc.2.1, acc.2.2 ++ [bill])
  | .error e =>
    (acc.1,
      recordError (recordFailure acc.2.1) ("Bill " ++ billNum bill ++ ": " ++ e),
      acc.2.2 ++ [bill])

/-- The whole Persisting loop over a batch of bills. -/
def ingestBillsLoop {β ρ : Type} (mapBill : β → Except String ρ)
    (billNum : β → String) (bills : List β) (r : Reporter) :
    List ρ × Reporter × List β :=
  bills.foldl (processBill mapBill billNum) ([], r, [])

/-- The rows of the successfully mapped bills, in order. -/
def okRows {β ρ : Type} (mapBill : β → Except String ρ) (bills : List β) :
    List ρ :=
  bills.filterMap fun b => (mapBill b).toOption

/-- The formatted error messages of the failing bills, in order. -/
def failMsgs {β ρ : Type} (mapBill : β → Except String ρ)
    (billNum : β → String) (bills : List β) : List String :=
  bills.filterMap fun b =>
    match mapBill b with
    | .ok _ => none
    | .error e => some ("Bill " ++ billNum b ++ ": " ++ e)

lemma processBill_foldl {β ρ : Type} (mapBill : β → Except String ρ)
    (billNum : β → String) :
    ∀ (bills : List β) (vals : List ρ) (rep : Reporter) (att : List β),
      (bills.foldl (processBill mapBill billNum) (vals, rep, att)).1
        = vals ++ okRows mapBill bills ∧
      (bills.foldl (processBill mapBill billNum) (vals, rep, att)).2.2
        = att ++ bills ∧
      (bills.foldl (processBill mapBill billNum) (vals, rep, att)).2.1.stats.processedItems
        = rep.stats.processedItems + bills.length ∧
      (bills.foldl (processBill mapBill billNum) (vals, rep, att)).2.1.stats.successfulItems
        = rep.stats.successfulItems + (bills.countP fun b => isOkB (mapBill b)) ∧
      (bills.foldl (processBill mapBill billNum) (vals, rep, att)).2.1.stats.failedItems
        = rep.stats.failedItems + (bills.countP fun b => !isOkB (mapBill b)) ∧
      (bills.foldl (processBill mapBill billNum) (vals, rep, att)).2.1.stats.errors
        = rep.stats.errors ++ failMsgs mapBill billNum bills
  | [], vals, rep, att => by simp [okRows, failMsgs]
  | b :: bs, vals, rep, att => by
    cases hmb : mapBill b with
    | ok row =>
      have hstep : processBill mapBill billNum (vals, rep, att) b
          = (vals ++ [row], recordSuccess rep, att ++ [b]) := by
        simp [processBill, hmb]
      obtain ⟨i1, i2, i3, i4, i5, i6⟩ := processBill_foldl mapBill billNum bs
        (vals ++ [row]) (recordSuccess rep) (att ++ [b])
      rw [List.foldl_cons, hstep]
      refine ⟨?_, ?_, ?_, ?_, ?_, ?_⟩
      · have hok : okRows mapBill (b :: bs) = row :: okRows mapBill bs := by
          simp [okRows, List.filterMap_cons, hmb, Except.toOption]
        rw [i1, hok]
        simp
      · rw [i2]
        simp
      · rw [i3]
        simp only [recordSuccess, updateProgress, List.length_cons]
        omega
      · rw [i4]
        simp only [recordSuccess, updateProgress, List.countP_cons, hmb, isOkB]
        simp
        omega
      · rw [i5]
        simp only [recordSuccess, updateProgress, List.countP_cons, hmb, isOkB]
        simp
      · rw [i6]
        simp [recordSuccess, updateProgress, failMsgs, hmb]
    | error e =>
      have hstep : processBill mapBill billNum (vals, rep, att) b
          = (vals,
              recordError (recordFailure rep) ("Bill " ++ billNum b ++ ": " ++ e),
              att ++ [b]) := by
        simp [processBill, hmb]
      obtain ⟨i1, i2, i3, i4, i5, i6⟩ := processBill_foldl mapBill billNum bs
        vals (recordError (recordFailure rep) ("Bill " ++ billNum b ++ ": " ++ e))
        (att ++ [b])
      rw [List.foldl_cons, hstep]
      refine ⟨?_, ?_, ?_, ?_, ?_, ?_⟩
      · have hok : okRows mapBill (b :: bs) = okRows mapBill bs := by
          simp [okRows, List.filterMap_cons, hmb, Except.toOption]
        rw [i1, hok]
      · rw [i2]
        simp
      · rw [i3]
        simp only [recordError, recordFailure, updateProgress, List.length_cons]
        omega
      · rw [i4]
        simp only [recordError, recordFailure, updateProgress,
          List.countP_cons, hmb, isOkB]
        simp
      · rw [i5]
        simp only [recordError, recordFailure, updateProgress,
          List.countP_cons, hmb, isOkB]
        simp
        omega
      · rw [i6]
        simp [recordError, recordFailure, updateProgress, failMsgs, hmb]

/-- A concrete mapping in which bill number 3 raises during row mapping. -/
def demoMapBill : Nat → Except String Nat :=
  fun n => if n = 3 then .error "missing introducedDate" else .ok n

/-- C5: a per-item mapping failure is caught and recorded, and processing
continues.  Starting from a fresh reporter, every bill of the batch is
attempted, in order; the processed count equals the batch size; the
success and failure counters count exactly the bills whose mapping
succeeds and fails; the collected rows are those of the successful bills
in order; and exactly one formatted error message is recorded per failing
bill.  In particular, for the concrete batch of 5 bills in which the
mapping of bill 3 raises, the run records exactly 4 successes and 1
failure, bills 4 and 5 are still attempted, and one error is recorded. -/
theorem persisting_isolates_item_failures {β ρ : Type}
    (mapBill : β → Except String ρ) (billNum : β → String)
    (bills : List β) (now : Nat) :
    (ingestBillsLoop mapBill billNum bills (initReporter now)).2.2 = bills ∧
    (ingestBillsLoop mapBill billNum bills (initReporter now)).1
      = okRows mapBill bills ∧
    (ingestBillsLoop mapBill billNum bills
        (initReporter now)).2.1.stats.processedItems = bills.length ∧
    (ingestBillsLoop mapBill billNum bills
        (initReporter now)).2.1.stats.successfulItems
      = (bills.countP fun b => isOkB (mapBill b)) ∧
    (ingestBillsLoop mapBill billNum bills
        (initReporter now)).2.1.stats.failedItems
      = (bills.countP fun b => !isOkB (mapBill b)) ∧
    (ingestBillsLoop mapBill billNum bills (initReporter now)).2.1.stats.errors
      = failMsgs mapBill billNum bills ∧
    (ingestBillsLoop demoMapBill toString [1, 2, 3, 4, 5]
        (initReporter 0)).2.1.stats.successfulItems = 4 ∧
    (ingestBillsLoop demoMapBill toString [1, 2, 3, 4, 5]
        (initReporter 0)).2.1.stats.failedItems = 1 ∧
    (ingestBillsLoop demoMapBill toString [1, 2, 3, 4, 5]
        (initReporter 0)).2.2 = [1, 2, 3, 4, 5] ∧
    (ingestBillsLoop demoMapBill toString [1, 2, 3, 4, 5]
        (initReporter 0)).2.1.stats.errors
      = ["Bill 3: missing introducedDate"] := by
  obtain ⟨i1, i2, i3, i4, i5, i6⟩ := processBill_foldl mapBill billNum bills
    [] (initReporter now) []
  exact ⟨by simpa using i2, by simpa using i1,
    by simpa [initReporter, initStats] using i3,
    by simpa [initReporter, initStats] using i4,
    by simpa [initReporter, initStats] using i5,
    by simpa [initReporter, initStats] using i6,
    by decide, by decide, by decide, by decide⟩
